import Mathlib

/-!
Shallow embedding of the game-session / leaderboard server in `src/server.js`.

The persistent PostgreSQL tables (`active_games`, `top_scores`, `pending_tokens`)
are modelled as lists inside an explicit `ServerState`; the SERIAL primary key of
`top_scores` is modelled by a `nextScoreId` counter.  Each HTTP handler becomes a
pure function from a request, the current time, and the state to a result and a
new state.  Every database query the handler issues may fail (the `catch` paths
of the source); a record of Booleans says which query throws, and a transaction
(`updateTop3`) that fails rolls back, leaving the state unchanged.  The SHA-256
token digest is an abstract parameter `hash : String → String`.
-/

namespace DoveServer

/-- The `GAME_CONFIG` object of `server.js` (values come from the environment;
the spec's defaults are `defaultConfig` below). -/
structure GameConfig where
  MIN_GAME_DURATION : Int
  MAX_GAME_DURATION : Int
  TOKEN_EXPIRY : Int
  MAX_SCORE : Int
  MIN_SCORE : Int
  deriving DecidableEq

/-- The documented default bounds: duration 1..600000 ms, token expiry 5 min,
score 0..999999. -/
def defaultConfig : GameConfig :=
  { MIN_GAME_DURATION := 1
    MAX_GAME_DURATION := 600000
    TOKEN_EXPIRY := 300000
    MAX_SCORE := 999999
    MIN_SCORE := 0 }

/-- A row of `active_games` (`created_at` plays no role in the handlers modelled
here, only in the periodic sweep). -/
structure GameSession where
  id : String
  startTime : Int
  deriving DecidableEq

/-- A row of `top_scores`; `id` is the SERIAL primary key. -/
structure ScoreEntry where
  id : Nat
  username : String
  score : Int
  deriving DecidableEq

/-- A row of `pending_tokens`. -/
structure PendingToken where
  id : String
  tokenHash : String
  score : Int
  gameDuration : Int
  expiresAt : Int
  deriving DecidableEq

/-- The whole persistent state. -/
structure ServerState where
  activeGames : List GameSession
  nextScoreId : Nat
  topScores : List ScoreEntry
  pendingTokens : List PendingToken
  deriving DecidableEq

/-- `ORDER BY score DESC`: `a` comes no later than `b` when `a.score ≥ b.score`. -/
def scoreGe (a b : ScoreEntry) : Prop := b.score ≤ a.score

instance : DecidableRel scoreGe := fun a b =>
  inferInstanceAs (Decidable (b.score ≤ a.score))

instance : IsTotal ScoreEntry scoreGe := ⟨fun a b => le_total b.score a.score⟩

instance : IsTrans ScoreEntry scoreGe := ⟨fun _ _ _ h1 h2 => le_trans h2 h1⟩

/-- The rows of `top_scores` in `ORDER BY score DESC` order. -/
def sortByScoreDesc (l : List ScoreEntry) : List ScoreEntry :=
  l.insertionSort scoreGe

/-- `SELECT ... FROM top_scores ORDER BY score DESC LIMIT 3`. -/
def top3Rows (l : List ScoreEntry) : List ScoreEntry :=
  (sortByScoreDesc l).take 3

/-- `isTop3Score` of `server.js`: fewer than 3 rows means the score always
qualifies; otherwise it must strictly exceed the last (lowest) of the top 3. -/
def isTop3Score (entries : List ScoreEntry) (score : Int) : Bool :=
  match top3Rows entries with
  | [_, _, e3] => decide (e3.score < score)
  | _ => true

/-- The ids kept by the trimming query
`SELECT id FROM top_scores ORDER BY score DESC LIMIT 3`. -/
def top3Ids (l : List ScoreEntry) : List Nat :=
  (top3Rows l).map ScoreEntry.id

/-- `DELETE FROM top_scores WHERE id NOT IN (top 3 ids)`. -/
def trimTop3 (l : List ScoreEntry) : List ScoreEntry :=
  l.filter (fun e => decide (e.id ∈ top3Ids l))

/-- `updateTop3` of `server.js`: inside one transaction, insert the new row and
delete everything outside the top 3.  `fails = true` is a thrown query: the
transaction rolls back and `none` is returned (the caller keeps its old state). -/
def updateTop3 (nextId : Nat) (entries : List ScoreEntry) (username : String)
    (score : Int) (fails : Bool) : Option (Nat × List ScoreEntry) :=
  if fails then none
  else some (nextId + 1, trimTop3 (entries ++ [⟨nextId, username, score⟩]))

/-- `DELETE FROM active_games WHERE id = $1`. -/
def deleteActiveGame (games : List GameSession) (gid : String) : List GameSession :=
  games.filter (fun g => decide (¬ g.id = gid))

/-- `DELETE FROM pending_tokens WHERE id = $1`. -/
def deletePendingToken (toks : List PendingToken) (gid : String) : List PendingToken :=
  toks.filter (fun t => decide (¬ t.id = gid))

/-- Body of `POST /api/game/end`; `none` models an absent or non-string /
non-numeric field (`!gameId`, `typeof score !== 'number'`). -/
structure EndRequest where
  gameId : Option String
  score : Option Int

/-- The observable outcomes of `POST /api/game/end`. -/
inductive EndResult where
  | invalidRequest (msg : String)
  | sessionNotFound
  | invalidDuration (duration : Int)
  | notTop3
  | top3 (token : String) (expiresIn : Int)
  | storageFailure
  deriving DecidableEq

/-- Which of the five queries issued by the `end` handler throws. -/
structure EndFailures where
  selectGame : Bool
  deleteInvalid : Bool
  top3Query : Bool
  deleteGame : Bool
  insertToken : Bool
  deriving DecidableEq

/-- All queries succeed. -/
def noEndFailures : EndFailures := ⟨false, false, false, false, false⟩

/-- The `POST /api/game/end` handler.  `endTime` is `Date.now()` at entry,
`newToken` the value of `generateSecureToken()`, `hash` the SHA-256 hex digest. -/
def endSession (cfg : GameConfig) (hash : String → String) (st : ServerState)
    (req : EndRequest) (endTime : Int) (newToken : String) (f : EndFailures) :
    EndResult × ServerState :=
  match req.gameId, req.score with
  | some gid, some score =>
    if gid = "" then (.invalidRequest "gameId y score son requeridos", st)
    else if score < cfg.MIN_SCORE ∨ score > cfg.MAX_SCORE then
      (.invalidRequest "Puntuación fuera del rango válido", st)
    else if f.selectGame then (.storageFailure, st)
    else
      match st.activeGames.find? (fun g => decide (g.id = gid)) with
      | none => (.sessionNotFound, st)
      | some g =>
        let gameDuration := endTime - g.startTime
        if gameDuration < cfg.MIN_GAME_DURATION ∨
            gameDuration > cfg.MAX_GAME_DURATION then
          if f.deleteInvalid then (.storageFailure, st)
          else (.invalidDuration gameDuration,
            { st with activeGames := deleteActiveGame st.activeGames gid })
        else if f.top3Query then (.storageFailure, st)
        else
          let qualifies := isTop3Score st.topScores score
          if f.deleteGame then (.storageFailure, st)
          else
            let st1 := { st with activeGames := deleteActiveGame st.activeGames gid }
            if qualifies = false then (.notTop3, st1)
            else if f.insertToken then (.storageFailure, st1)
            else
              (.top3 newToken cfg.TOKEN_EXPIRY,
                { st1 with pendingTokens := st1.pendingTokens ++
                    [⟨gid, hash newToken, score, gameDuration,
                      endTime + cfg.TOKEN_EXPIRY⟩] })
  | _, _ => (.invalidRequest "gameId y score son requeridos", st)

/-- Body of `POST /api/game/register-top3`. -/
structure RegisterRequest where
  gameId : Option String
  username : Option String
  token : Option String

/-- The observable outcomes of `POST /api/game/register-top3`. -/
inductive RegisterResult where
  | invalidRequest (msg : String)
  | proofNotFound
  | proofExpired
  | storageFailure
  | success (score : Int)
  deriving DecidableEq

/-- Which of the four queries issued by the `register-top3` handler throws
(`top3Update` is the whole transaction of `updateTop3`). -/
structure RegisterFailures where
  selectToken : Bool
  deleteExpired : Bool
  top3Update : Bool
  deleteUsed : Bool
  deriving DecidableEq

/-- All queries succeed. -/
def noRegFailures : RegisterFailures := ⟨false, false, false, false⟩

/-- JS `String.prototype.trim`: strip leading and trailing whitespace
(executable model over the character list). -/
def trimString (s : String) : String :=
  ⟨((s.data.dropWhile Char.isWhitespace).reverse.dropWhile
      Char.isWhitespace).reverse⟩

/-- The compound `WHERE id = $1 AND token_hash = $2` match of the proof
lookup. -/
def matchesProof (gid h : String) (t : PendingToken) : Bool :=
  decide (t.id = gid ∧ t.tokenHash = h)

/-- The `POST /api/game/register-top3` handler.  `now` is `Date.now()`,
`hash` the SHA-256 hex digest. -/
def registerTop3 (hash : String → String) (st : ServerState)
    (req : RegisterRequest) (now : Int) (f : RegisterFailures) :
    RegisterResult × ServerState :=
  match req.gameId, req.username, req.token with
  | some gid, some username, some token =>
    if gid = "" ∨ username = "" ∨ token = "" then
      (.invalidRequest "gameId, username y token son requeridos", st)
    else if (trimString username).length < 1 ∨ username.length > 50 then
      (.invalidRequest "El nombre debe tener entre 1 y 50 caracteres", st)
    else if f.selectToken then (.storageFailure, st)
    else
      match st.pendingTokens.find? (matchesProof gid (hash token)) with
      | none => (.proofNotFound, st)
      | some tok =>
        if tok.expiresAt < now then
          if f.deleteExpired then (.storageFailure, st)
          else (.proofExpired,
            { st with pendingTokens := deletePendingToken st.pendingTokens gid })
        else
          match updateTop3 st.nextScoreId st.topScores (trimString username)
              tok.score f.top3Update with
          | none => (.storageFailure, st)
          | some (nid, entries) =>
            let st1 := { st with nextScoreId := nid, topScores := entries }
            if f.deleteUsed then (.storageFailure, st1)
            else (.success tok.score,
              { st1 with pendingTokens := deletePendingToken st1.pendingTokens gid })
  | _, _, _ => (.invalidRequest "gameId, username y token son requeridos", st)

/-! ### Helper lemmas -/

theorem sortByScoreDesc_perm (l : List ScoreEntry) :
    List.Perm (sortByScoreDesc l) l :=
  List.perm_insertionSort scoreGe l

theorem sortByScoreDesc_sorted (l : List ScoreEntry) :
    List.Sorted scoreGe (sortByScoreDesc l) :=
  List.sorted_insertionSort scoreGe l

/-- Filtering a list with distinct keys down to the keys of a sublist recovers
exactly that sublist. -/
theorem filter_mem_map_of_sublist {α β : Type} [DecidableEq β] (f : α → β) :
    ∀ {t m : List α}, t.Sublist m → (m.map f).Nodup →
      m.filter (fun a => decide (f a ∈ t.map f)) = t := by
  intro t m hsub
  induction hsub with
  | slnil => intro _; rfl
  | @cons l₁ l₂ a h ih =>
    intro hnd
    rw [List.map_cons, List.nodup_cons] at hnd
    obtain ⟨ha, hnd2⟩ := hnd
    rw [List.filter_cons_of_neg, ih hnd2]
    simp only [decide_eq_true_eq]
    intro hmem
    exact ha ((h.map f).subset hmem)
  | @cons₂ l₁ l₂ a h ih =>
    intro hnd
    rw [List.map_cons, List.nodup_cons] at hnd
    obtain ⟨ha, hnd2⟩ := hnd
    rw [List.filter_cons_of_pos (by simp)]
    have hcong : ∀ x ∈ l₂, decide (f x ∈ (a :: l₁).map f) =
        decide (f x ∈ l₁.map f) := by
      intro x hx
      have hne : f x ≠ f a := fun hEq => ha (hEq ▸ List.mem_map_of_mem f hx)
      simp [hne]
    rw [List.filter_congr hcong, ih hnd2]

/-- With distinct primary keys, the trimming `DELETE` keeps exactly (a
permutation of) the first three rows of the score-descending order. -/
theorem trimTop3_perm (l : List ScoreEntry)
    (hnd : (l.map ScoreEntry.id).Nodup) :
    List.Perm (trimTop3 l) (top3Rows l) := by
  have hperm : List.Perm (sortByScoreDesc l) l := sortByScoreDesc_perm l
  have hndm : ((sortByScoreDesc l).map ScoreEntry.id).Nodup :=
    ((hperm.map ScoreEntry.id).nodup_iff).mpr hnd
  have hsub : (top3Rows l).Sublist (sortByScoreDesc l) := List.take_sublist 3 _
  have hfil := filter_mem_map_of_sublist ScoreEntry.id hsub hndm
  have hstep : List.Perm (trimTop3 l)
      ((sortByScoreDesc l).filter (fun e => decide (e.id ∈ top3Ids l))) :=
    (hperm.filter _).symm
  simp only [top3Ids] at hstep
  rw [hfil] at hstep
  exact hstep

theorem find?_deleteActiveGame (games : List GameSession) (gid : String) :
    (deleteActiveGame games gid).find? (fun g => decide (g.id = gid)) = none := by
  rw [List.find?_eq_none]
  intro g hg
  rw [deleteActiveGame, List.mem_filter] at hg
  simpa using hg.2

theorem find?_deletePendingToken (toks : List PendingToken) (gid h : String) :
    (deletePendingToken toks gid).find? (matchesProof gid h) = none := by
  rw [List.find?_eq_none]
  intro t ht
  rw [deletePendingToken, List.mem_filter] at ht
  have := ht.2
  simp only [matchesProof, decide_eq_true_eq] at this ⊢
  intro hc
  exact this hc.1

/-- A well-formed `end` request whose session id is absent from the store is
answered with `sessionNotFound` and the state is untouched. -/
theorem endSession_notFound (cfg : GameConfig) (hash : String → String)
    (st : ServerState) (gid : String) (s : Int) (t : Int) (tok : String)
    (f : EndFailures)
    (hgid : ¬ gid = "")
    (hs : ¬ (s < cfg.MIN_SCORE ∨ s > cfg.MAX_SCORE))
    (hf : f.selectGame = false)
    (hfind : st.activeGames.find? (fun g => decide (g.id = gid)) = none) :
    endSession cfg hash st ⟨some gid, some s⟩ t tok f = (.sessionNotFound, st) := by
  simp [endSession, hgid, hs, hf, hfind]

/-- Whenever the `end` handler answers `invalidDuration`, `notTop3` or `top3`,
the session row has been deleted from the store. -/
theorem endSession_consumed_cases (cfg : GameConfig) (hash : String → String)
    (st : ServerState) (gid : String) (s : Int) (t : Int) (tok : String)
    (f : EndFailures)
    (hr : (∃ d, (endSession cfg hash st ⟨some gid, some s⟩ t tok f).1 =
            .invalidDuration d) ∨
          (endSession cfg hash st ⟨some gid, some s⟩ t tok f).1 = .notTop3 ∨
          (∃ tk e, (endSession cfg hash st ⟨some gid, some s⟩ t tok f).1 =
            .top3 tk e)) :
    (endSession cfg hash st ⟨some gid, some s⟩ t tok f).2.activeGames =
      deleteActiveGame st.activeGames gid := by
  by_cases h1 : gid = ""
  · simp [endSession, h1] at hr
  by_cases h2 : s < cfg.MIN_SCORE ∨ s > cfg.MAX_SCORE
  · simp [endSession, h1, h2] at hr
  by_cases h3 : f.selectGame
  · simp [endSession, h1, h2, h3] at hr
  rcases h4 : st.activeGames.find? (fun g => decide (g.id = gid)) with _ | g
  · simp [endSession, h1, h2, h3, h4] at hr
  by_cases h5 : t - g.startTime < cfg.MIN_GAME_DURATION ∨
      t - g.startTime > cfg.MAX_GAME_DURATION
  · by_cases h6 : f.deleteInvalid
    · simp [endSession, h1, h2, h3, h4, h5, h6] at hr
    · simp [endSession, h1, h2, h3, h4, h5, h6]
  · by_cases h7 : f.top3Query
    · simp [endSession, h1, h2, h3, h4, h5, h7] at hr
    by_cases h8 : f.deleteGame
    · simp [endSession, h1, h2, h3, h4, h5, h7, h8] at hr
    by_cases h9 : isTop3Score st.topScores s = false
    · simp [endSession, h1, h2, h3, h4, h5, h7, h8, h9]
    · by_cases h10 : f.insertToken
      · simp [endSession, h1, h2, h3, h4, h5, h7, h8, h9, h10] at hr
      · simp [endSession, h1, h2, h3, h4, h5, h7, h8, h9, h10]

/-! ### Claims -/

/-- C1: after any `end` call on session `gid` that found the session — whether
it answered `invalidDuration`, `notTop3` (qualifies: false) or `top3`
(qualifies: true) — a second well-formed `end` call with the same id answers
`sessionNotFound` and leaves the state (in particular the pending-token store)
untouched, so no second proof token is ever issued. -/
theorem endSession_at_most_once
    (cfg : GameConfig) (hash1 hash2 : String → String) (st : ServerState)
    (gid : String) (s1 s2 : Int) (t1 t2 : Int) (tok1 tok2 : String)
    (f1 f2 : EndFailures)
    (hgid : ¬ gid = "")
    (hs2 : ¬ (s2 < cfg.MIN_SCORE ∨ s2 > cfg.MAX_SCORE))
    (hf2 : f2.selectGame = false)
    (hr : (∃ d, (endSession cfg hash1 st ⟨some gid, some s1⟩ t1 tok1 f1).1 =
            .invalidDuration d) ∨
          (endSession cfg hash1 st ⟨some gid, some s1⟩ t1 tok1 f1).1 = .notTop3 ∨
          (∃ tk e, (endSession cfg hash1 st ⟨some gid, some s1⟩ t1 tok1 f1).1 =
            .top3 tk e)) :
    endSession cfg hash2 (endSession cfg hash1 st ⟨some gid, some s1⟩ t1 tok1 f1).2
        ⟨some gid, some s2⟩ t2 tok2 f2 =
      (.sessionNotFound,
        (endSession cfg hash1 st ⟨some gid, some s1⟩ t1 tok1 f1).2) := by
  apply endSession_notFound _ _ _ _ _ _ _ _ hgid hs2 hf2
  rw [endSession_consumed_cases cfg hash1 st gid s1 t1 tok1 f1 hr]
  exact find?_deleteActiveGame _ _

/-- Witness for C1 at a concrete store: a qualifying first call, then a second
call on the same id answering `sessionNotFound`. -/
theorem endSession_at_most_once_witness :
    endSession defaultConfig (fun x => x)
        (endSession defaultConfig (fun x => x) ⟨[⟨"g1", 0⟩], 0, [], []⟩
          ⟨some "g1", some 5⟩ 100 "tok" noEndFailures).2
        ⟨some "g1", some 7⟩ 200 "tok2" noEndFailures =
      (.sessionNotFound,
        (endSession defaultConfig (fun x => x) ⟨[⟨"g1", 0⟩], 0, [], []⟩
          ⟨some "g1", some 5⟩ 100 "tok" noEndFailures).2) :=
  endSession_at_most_once defaultConfig (fun x => x) (fun x => x)
    ⟨[⟨"g1", 0⟩], 0, [], []⟩ "g1" 5 7 100 200 "tok" "tok2"
    noEndFailures noEndFailures (by decide) (by decide) rfl
    (Or.inr (Or.inr ⟨"tok", 300000, by decide⟩))

/-- C4 counterexample: a session exists, the computed duration is within
bounds, the leaderboard-eligibility query fails — the handler answers
`storageFailure` and the session row is NOT deleted (the state, session row
included, is returned unchanged). -/
theorem endSession_unconditional_delete_counterexample :
    endSession defaultConfig (fun x => x) ⟨[⟨"g1", 0⟩], 0, [], []⟩
        ⟨some "g1", some 5⟩ 100 "tok" ⟨false, false, true, false, false⟩ =
      (.storageFailure, ⟨[⟨"g1", 0⟩], 0, [], []⟩) := by decide

/-- C4 (amended): on an Active session whose duration is within bounds, the
session row is deleted on every path that gets past the eligibility check
(qualifies: false, qualifies: true, and even a failing token insert); but when
the eligibility check itself fails with `storageFailure` the session row is
left intact (the whole state is unchanged), so that the call can be retried. -/
theorem endSession_delete_amended
    (cfg : GameConfig) (hash : String → String) (st : ServerState)
    (gid : String) (s : Int) (t : Int) (tok : String) (f : EndFailures)
    (g : GameSession)
    (hgid : ¬ gid = "")
    (hs : ¬ (s < cfg.MIN_SCORE ∨ s > cfg.MAX_SCORE))
    (hsel : f.selectGame = false)
    (hfind : st.activeGames.find? (fun x => decide (x.id = gid)) = some g)
    (hdur : ¬ (t - g.startTime < cfg.MIN_GAME_DURATION ∨
        t - g.startTime > cfg.MAX_GAME_DURATION)) :
    (f.top3Query = true →
      endSession cfg hash st ⟨some gid, some s⟩ t tok f = (.storageFailure, st)) ∧
    (f.top3Query = false → f.deleteGame = false →
      (endSession cfg hash st ⟨some gid, some s⟩ t tok f).2.activeGames =
        deleteActiveGame st.activeGames gid) := by
  constructor
  · intro h7
    simp [endSession, hgid, hs, hsel, hfind, hdur, h7]
  · intro h7 h8
    by_cases h9 : isTop3Score st.topScores s = false
    · simp [endSession, hgid, hs, hsel, hfind, hdur, h7, h8, h9]
    · by_cases h10 : f.insertToken
      · simp [endSession, hgid, hs, hsel, hfind, hdur, h7, h8, h9, h10]
      · simp [endSession, hgid, hs, hsel, hfind, hdur, h7, h8, h9, h10]

/-- Witness for the amended C4 at a concrete store. -/
theorem endSession_delete_amended_witness :
    (⟨false, false, true, false, false⟩ : EndFailures).top3Query = true ∧
    endSession defaultConfig (fun x => x) ⟨[⟨"g1", 0⟩], 0, [], []⟩
        ⟨some "g1", some 5⟩ 100 "tok" ⟨false, false, true, false, false⟩ =
      (.storageFailure, ⟨[⟨"g1", 0⟩], 0, [], []⟩) :=
  ⟨rfl,
    (endSession_delete_amended defaultConfig (fun x => x) ⟨[⟨"g1", 0⟩], 0, [], []⟩
      "g1" 5 100 "tok" ⟨false, false, true, false, false⟩ ⟨"g1", 0⟩
      (by decide) (by decide) rfl (by decide) (by decide)).1 rfl⟩

/-- C5: a well-formed `end` request whose score lies outside
`MIN_SCORE..MAX_SCORE` is rejected with `invalidRequest` ("Puntuación fuera
del rango válido") and the state is completely untouched — no store is read
or written. -/
theorem endSession_score_range
    (cfg : GameConfig) (hash : String → String) (st : ServerState)
    (gid : String) (s : Int) (t : Int) (tok : String) (f : EndFailures)
    (hgid : ¬ gid = "")
    (hout : s < cfg.MIN_SCORE ∨ s > cfg.MAX_SCORE) :
    endSession cfg hash st ⟨some gid, some s⟩ t tok f =
      (.invalidRequest "Puntuación fuera del rango válido", st) := by
  simp [endSession, hgid, hout]

/-- Witness for C5: `End(g2, score = -5)` under the default 0..999999 bounds. -/
theorem endSession_score_range_witness :
    endSession defaultConfig (fun x => x) ⟨[⟨"g2", 0⟩], 0, [], []⟩
        ⟨some "g2", some (-5)⟩ 100 "tok" noEndFailures =
      (.invalidRequest "Puntuación fuera del rango válido",
        ⟨[⟨"g2", 0⟩], 0, [], []⟩) :=
  endSession_score_range defaultConfig (fun x => x) ⟨[⟨"g2", 0⟩], 0, [], []⟩
    "g2" (-5) 100 "tok" noEndFailures (by decide) (by decide)

/-- C6: an `end` call whose computed duration falls below `MIN_GAME_DURATION`
(e.g. 0 ms under the default minimum of 1 ms) answers `invalidDuration` with
the computed duration and deletes the session row; a subsequent well-formed
`end` call with the same id answers `sessionNotFound`. -/
theorem endSession_below_min_duration
    (cfg : GameConfig) (hash1 hash2 : String → String) (st : ServerState)
    (gid : String) (s s2 : Int) (t t2 : Int) (tok tok2 : String)
    (f f2 : EndFailures) (g : GameSession)
    (hgid : ¬ gid = "")
    (hs : ¬ (s < cfg.MIN_SCORE ∨ s > cfg.MAX_SCORE))
    (hs2 : ¬ (s2 < cfg.MIN_SCORE ∨ s2 > cfg.MAX_SCORE))
    (hsel : f.selectGame = false) (hdel : f.deleteInvalid = false)
    (hsel2 : f2.selectGame = false)
    (hfind : st.activeGames.find? (fun x => decide (x.id = gid)) = some g)
    (hdur : t - g.startTime < cfg.MIN_GAME_DURATION) :
    endSession cfg hash1 st ⟨some gid, some s⟩ t tok f =
      (.invalidDuration (t - g.startTime),
        { st with activeGames := deleteActiveGame st.activeGames gid }) ∧
    endSession cfg hash2
        { st with activeGames := deleteActiveGame st.activeGames gid }
        ⟨some gid, some s2⟩ t2 tok2 f2 =
      (.sessionNotFound,
        { st with activeGames := deleteActiveGame st.activeGames gid }) := by
  have hor : t - g.startTime < cfg.MIN_GAME_DURATION ∨
      t - g.startTime > cfg.MAX_GAME_DURATION := Or.inl hdur
  constructor
  · simp [endSession, hgid, hs, hsel, hfind, hor, hdel]
  · exact endSession_notFound _ _ _ _ _ _ _ _ hgid hs2 hsel2
      (find?_deleteActiveGame _ _)

/-- Witness for C6: a session ended 0 ms after start under the default
configuration. -/
theorem endSession_below_min_duration_witness :
    endSession defaultConfig (fun x => x) ⟨[⟨"g1", 50⟩], 0, [], []⟩
        ⟨some "g1", some 5⟩ 50 "tok" noEndFailures =
      (.invalidDuration 0, ⟨[], 0, [], []⟩) ∧
    endSession defaultConfig (fun x => x) ⟨[], 0, [], []⟩
        ⟨some "g1", some 5⟩ 60 "tok2" noEndFailures =
      (.sessionNotFound, ⟨[], 0, [], []⟩) := by
  have h := endSession_below_min_duration defaultConfig (fun x => x) (fun x => x)
    ⟨[⟨"g1", 50⟩], 0, [], []⟩ "g1" 5 5 50 60 "tok" "tok2"
    noEndFailures noEndFailures ⟨"g1", 50⟩
    (by decide) (by decide) (by decide) rfl rfl rfl (by decide) (by decide)
  exact h

/-- Appending a row with a fresh SERIAL id keeps the primary keys distinct. -/
theorem nodup_append_fresh (entries : List ScoreEntry) (nextId : Nat)
    (u : String) (sc : Int)
    (hnd : (entries.map ScoreEntry.id).Nodup)
    (hlt : ∀ e ∈ entries, e.id < nextId) :
    ((entries ++ [(⟨nextId, u, sc⟩ : ScoreEntry)]).map ScoreEntry.id).Nodup := by
  rw [List.map_append, List.nodup_append]
  refine ⟨hnd, List.nodup_singleton _, ?_⟩
  intro x hx
  obtain ⟨e, he, rfl⟩ := List.mem_map.mp hx
  simp only [List.map_cons, List.map_nil, List.mem_singleton]
  exact Nat.ne_of_lt (hlt e he)

/-- A `LIMIT 3` query returns at most 3 rows. -/
theorem top3Rows_length_le (l : List ScoreEntry) : (top3Rows l).length ≤ 3 := by
  rw [top3Rows, List.length_take]
  exact min_le_left _ _

/-- A `LIMIT 3` query's rows are ordered by score descending. -/
theorem top3Rows_sorted (l : List ScoreEntry) :
    List.Sorted scoreGe (top3Rows l) :=
  List.Pairwise.sublist (List.take_sublist 3 _) (sortByScoreDesc_sorted l)

/-- C2: after every successful `register-top3` call, the leaderboard store
holds at most 3 rows, and (as a single atomic insert-then-trim, modelled as one
all-or-nothing transition) the rows kept are exactly (a permutation of) the
first three rows of the new table ordered by score descending. -/
theorem registerTop3_at_most_three
    (hash : String → String) (st : ServerState) (req : RegisterRequest)
    (now : Int) (f : RegisterFailures)
    (hnd : (st.topScores.map ScoreEntry.id).Nodup)
    (hlt : ∀ e ∈ st.topScores, e.id < st.nextScoreId) :
    ∀ sc, (registerTop3 hash st req now f).1 = .success sc →
      (registerTop3 hash st req now f).2.topScores.length ≤ 3 ∧
      ∃ u, List.Perm (registerTop3 hash st req now f).2.topScores
          (top3Rows (st.topScores ++ [⟨st.nextScoreId, u, sc⟩])) ∧
        List.Sorted scoreGe (top3Rows (st.topScores ++ [⟨st.nextScoreId, u, sc⟩])) := by
  intro sc hsc
  rcases req with ⟨og, ou, ot⟩
  rcases og with _ | gid
  · simp [registerTop3] at hsc
  rcases ou with _ | username
  · simp [registerTop3] at hsc
  rcases ot with _ | token
  · simp [registerTop3] at hsc
  by_cases h1 : gid = "" ∨ username = "" ∨ token = ""
  · simp [registerTop3, h1] at hsc
  by_cases h2 : (trimString username).length < 1 ∨ username.length > 50
  · have h2n : (trimString username).length = 0 ∨ 50 < username.length := by omega
    simp [registerTop3, h1, h2n] at hsc
  have h2n : ¬ ((trimString username).length = 0 ∨ 50 < username.length) := by omega
  by_cases h3 : f.selectToken
  · simp [registerTop3, h1, h2n, h3] at hsc
  rcases h4 : st.pendingTokens.find? (matchesProof gid (hash token)) with _ | tok
  · simp [registerTop3, h1, h2n, h3, h4] at hsc
  by_cases h5 : tok.expiresAt < now
  · by_cases h6 : f.deleteExpired <;>
      simp [registerTop3, h1, h2n, h3, h4, h5, h6] at hsc
  by_cases h7 : f.top3Update
  · simp [registerTop3, h1, h2n, h3, h4, h5, h7, updateTop3] at hsc
  by_cases h8 : f.deleteUsed
  · simp [registerTop3, h1, h2n, h3, h4, h5, h7, h8, updateTop3] at hsc
  have hres : registerTop3 hash st ⟨some gid, some username, some token⟩ now f =
      (.success tok.score,
        { st with
            nextScoreId := st.nextScoreId + 1
            topScores := trimTop3 (st.topScores ++
              [(⟨st.nextScoreId, trimString username, tok.score⟩ : ScoreEntry)])
            pendingTokens := deletePendingToken st.pendingTokens gid }) := by
    simp [registerTop3, h1, h2n, h3, h4, h5, h7, h8, updateTop3]
  rw [hres] at hsc ⊢
  simp only [RegisterResult.success.injEq] at hsc
  subst hsc
  have hp := trimTop3_perm
    (st.topScores ++
      [(⟨st.nextScoreId, trimString username, tok.score⟩ : ScoreEntry)])
    (nodup_append_fresh st.topScores st.nextScoreId (trimString username)
      tok.score hnd hlt)
  refine ⟨?_, trimString username, hp, top3Rows_sorted _⟩
  rw [hp.length_eq]
  exact top3Rows_length_le _

/-- A shared concrete store for witnesses: three leaderboard rows with scores
10, 20, 30 (next SERIAL id 4) and one pending proof for session g1, digest
"tokH", score 25, expiring at time 1000. -/
def wState : ServerState :=
  ⟨[], 4, [⟨1, "a", 10⟩, ⟨2, "b", 20⟩, ⟨3, "c", 30⟩], [⟨"g1", "tokH", 25, 50, 1000⟩]⟩

/-- A concrete stand-in for the digest function in witnesses. -/
def wHash : String → String := fun s => s ++ "H"

/-- Witness for C2 at the concrete store `wState`: a successful registration,
after which the leaderboard holds at most 3 rows, the top 3 by score. -/
theorem registerTop3_at_most_three_witness :
    (registerTop3 wHash wState ⟨some "g1", some "Dan", some "tok"⟩ 500
        noRegFailures).2.topScores.length ≤ 3 ∧
    ∃ u, List.Perm (registerTop3 wHash wState ⟨some "g1", some "Dan", some "tok"⟩
          500 noRegFailures).2.topScores
        (top3Rows (wState.topScores ++ [⟨wState.nextScoreId, u, 25⟩])) ∧
      List.Sorted scoreGe
        (top3Rows (wState.topScores ++ [⟨wState.nextScoreId, u, 25⟩])) :=
  registerTop3_at_most_three wHash wState ⟨some "g1", some "Dan", some "tok"⟩
    500 noRegFailures (by decide) (by decide) 25 (by decide)

/-- C3: leaderboard eligibility — with fewer than 3 stored entries every score
qualifies; with exactly 3 stored entries a score qualifies iff it strictly
exceeds the lowest stored score (equivalently, strictly exceeds some stored
score). -/
theorem isTop3Score_eligibility (entries : List ScoreEntry) (s : Int) :
    (entries.length < 3 → isTop3Score entries s = true) ∧
    (entries.length = 3 →
      (isTop3Score entries s = true ↔ ∃ e ∈ entries, e.score < s)) := by
  have hperm : List.Perm (sortByScoreDesc entries) entries :=
    sortByScoreDesc_perm entries
  have hlen : (sortByScoreDesc entries).length = entries.length := hperm.length_eq
  have hsorted : List.Sorted scoreGe (sortByScoreDesc entries) :=
    sortByScoreDesc_sorted entries
  constructor
  · intro h3
    unfold isTop3Score
    split
    · rename_i e1 e2 e3 heq
      exfalso
      have hl := congrArg List.length heq
      simp [top3Rows, hlen] at hl
      omega
    · rfl
  · intro h3
    have h3' : (sortByScoreDesc entries).length = 3 := by omega
    obtain ⟨a, b, c, habc⟩ := List.length_eq_three.mp h3'
    have htake : top3Rows entries = [a, b, c] := by
      unfold top3Rows
      rw [habc]
      rfl
    unfold isTop3Score
    rw [htake]
    simp only [decide_eq_true_eq]
    rw [habc] at hsorted hperm
    simp only [List.sorted_cons, List.mem_cons, List.not_mem_nil, or_false,
      scoreGe] at hsorted
    constructor
    · intro hc
      exact ⟨c, hperm.mem_iff.mp (by simp), hc⟩
    · rintro ⟨e, he, hes⟩
      have : e ∈ [a, b, c] := hperm.mem_iff.mpr he
      simp only [List.mem_cons, List.not_mem_nil, or_false] at this
      rcases this with rfl | rfl | rfl
      · have := hsorted.1 c (Or.inr rfl)
        omega
      · have := hsorted.2.1 c rfl
        omega
      · exact hes

/-- Witness for C3: with two entries any score qualifies; with three entries
the equivalence holds at a concrete instance. -/
theorem isTop3Score_eligibility_witness :
    isTop3Score [⟨1, "a", 10⟩, ⟨2, "b", 20⟩] 0 = true ∧
    (isTop3Score [⟨1, "a", 10⟩, ⟨2, "b", 20⟩, ⟨3, "c", 30⟩] 11 = true ↔
      ∃ e ∈ [⟨1, "a", 10⟩, ⟨2, "b", 20⟩, (⟨3, "c", 30⟩ : ScoreEntry)],
        e.score < 11) :=
  ⟨(isTop3Score_eligibility [⟨1, "a", 10⟩, ⟨2, "b", 20⟩] 0).1 (by decide),
   (isTop3Score_eligibility [⟨1, "a", 10⟩, ⟨2, "b", 20⟩, ⟨3, "c", 30⟩] 11).2 rfl⟩


/-- A well-formed register request whose (id, digest) pair matches no pending
proof is answered `proofNotFound` with the state untouched. -/
theorem registerTop3_notFound
    (hash : String → String) (st : ServerState) (gid username token : String)
    (now : Int) (f : RegisterFailures)
    (h1 : ¬ (gid = "" ∨ username = "" ∨ token = ""))
    (h2 : ¬ ((trimString username).length < 1 ∨ username.length > 50))
    (h3 : f.selectToken = false)
    (hfind : st.pendingTokens.find? (matchesProof gid (hash token)) = none) :
    registerTop3 hash st ⟨some gid, some username, some token⟩ now f =
      (.proofNotFound, st) := by
  have h2n : ¬ ((trimString username).length = 0 ∨ 50 < username.length) := by
    omega
  simp [registerTop3, h1, h2n, h3, hfind]

/-- C7: the pending-proof lookup matches on the compound pair (session id,
token digest): for every stored proof `p`, a well-formed request carrying a
token whose digest equals `p`'s but a different session id is answered
`proofNotFound` (given that digests are unique across the store, as random
tokens make them), and a request carrying `p`'s session id but a token whose
digest differs is likewise answered `proofNotFound` (given that session ids
are primary keys).  The state is untouched in both cases. -/
theorem registerTop3_compound_match
    (hash : String → String) (st : ServerState) (p : PendingToken)
    (now : Int) (f : RegisterFailures)
    (_hp : p ∈ st.pendingTokens)
    (h3 : f.selectToken = false) :
    (∀ gid username token, ¬ (gid = "" ∨ username = "" ∨ token = "") →
      ¬ ((trimString username).length < 1 ∨ username.length > 50) →
      hash token = p.tokenHash → gid ≠ p.id →
      (∀ q ∈ st.pendingTokens, q.tokenHash = p.tokenHash → q.id = p.id) →
      registerTop3 hash st ⟨some gid, some username, some token⟩ now f =
        (.proofNotFound, st)) ∧
    (∀ username token, ¬ (p.id = "" ∨ username = "" ∨ token = "") →
      ¬ ((trimString username).length < 1 ∨ username.length > 50) →
      hash token ≠ p.tokenHash →
      (∀ q ∈ st.pendingTokens, q.id = p.id → q.tokenHash = p.tokenHash) →
      registerTop3 hash st ⟨some p.id, some username, some token⟩ now f =
        (.proofNotFound, st)) := by
  constructor
  · intro gid username token h1 h2 hdig hne huniq
    apply registerTop3_notFound hash st gid username token now f h1 h2 h3
    rw [List.find?_eq_none]
    intro q hq
    simp only [matchesProof, decide_eq_true_eq, not_and]
    intro hid htok
    exact absurd (hid ▸ huniq q hq (htok.trans hdig)) hne
  · intro username token h1 h2 hdigne hkey
    apply registerTop3_notFound hash st p.id username token now f h1 h2 h3
    rw [List.find?_eq_none]
    intro q hq
    simp only [matchesProof, decide_eq_true_eq, not_and]
    intro hid htok
    exact absurd (htok ▸ hkey q hq hid) hdigne

/-- C8: a register call matching a pending proof whose expiry has passed is
answered `proofExpired` and the proof row is deleted as a side effect, so any
subsequent well-formed register call for the same session id — with any token
and any digest function — is answered `proofNotFound`. -/
theorem registerTop3_expired_consumed
    (hash hash2 : String → String) (st : ServerState)
    (gid username username2 token token2 : String) (now now2 : Int)
    (f f2 : RegisterFailures) (p : PendingToken)
    (h1 : ¬ (gid = "" ∨ username = "" ∨ token = ""))
    (h2 : ¬ ((trimString username).length < 1 ∨ username.length > 50))
    (h1b : ¬ (gid = "" ∨ username2 = "" ∨ token2 = ""))
    (h2b : ¬ ((trimString username2).length < 1 ∨ username2.length > 50))
    (h3 : f.selectToken = false) (h3b : f2.selectToken = false)
    (hdel : f.deleteExpired = false)
    (hfind : st.pendingTokens.find? (matchesProof gid (hash token)) = some p)
    (hexp : p.expiresAt < now) :
    registerTop3 hash st ⟨some gid, some username, some token⟩ now f =
      (.proofExpired,
        { st with pendingTokens := deletePendingToken st.pendingTokens gid }) ∧
    registerTop3 hash2
        { st with pendingTokens := deletePendingToken st.pendingTokens gid }
        ⟨some gid, some username2, some token2⟩ now2 f2 =
      (.proofNotFound,
        { st with pendingTokens := deletePendingToken st.pendingTokens gid }) := by
  have h2n : ¬ ((trimString username).length = 0 ∨ 50 < username.length) := by
    omega
  constructor
  · simp [registerTop3, h1, h2n, h3, hfind, hexp, hdel]
  · exact registerTop3_notFound hash2 _ gid username2 token2 now2 f2 h1b h2b h3b
      (find?_deletePendingToken _ _ _)

/-- C9: when the atomic insert-then-trim leaderboard transaction fails, the
register call answers `storageFailure` with the state completely unchanged —
the leaderboard rolled back (no insert without trim is ever visible) and the
pending-proof row is left intact — and retrying the very same call with no
failures succeeds. -/
theorem registerTop3_update_rollback
    (hash : String → String) (st : ServerState)
    (gid username token : String) (now now2 : Int) (f : RegisterFailures)
    (p : PendingToken)
    (h1 : ¬ (gid = "" ∨ username = "" ∨ token = ""))
    (h2 : ¬ ((trimString username).length < 1 ∨ username.length > 50))
    (h3 : f.selectToken = false)
    (hupd : f.top3Update = true)
    (hfind : st.pendingTokens.find? (matchesProof gid (hash token)) = some p)
    (hexp : ¬ p.expiresAt < now) (hexp2 : ¬ p.expiresAt < now2) :
    registerTop3 hash st ⟨some gid, some username, some token⟩ now f =
      (.storageFailure, st) ∧
    (registerTop3 hash st ⟨some gid, some username, some token⟩ now2
        noRegFailures).1 = .success p.score := by
  have h2n : ¬ ((trimString username).length = 0 ∨ 50 < username.length) := by
    omega
  constructor
  · simp [registerTop3, h1, h2n, h3, hfind, hexp, hupd, updateTop3]
  · simp [registerTop3, h1, h2n, hfind, hexp2, updateTop3, noRegFailures]

/-- When the inserted row scores strictly below all three existing rows, the
trim of the same transaction deletes exactly the row just inserted. -/
theorem trimTop3_append_smallest (entries : List ScoreEntry) (e : ScoreEntry)
    (hlen : entries.length = 3)
    (hgt : ∀ x ∈ entries, e.score < x.score)
    (hid : ∀ x ∈ entries, x.id ≠ e.id) :
    trimTop3 (entries ++ [e]) = entries := by
  have hperm : List.Perm (sortByScoreDesc (entries ++ [e])) (entries ++ [e]) :=
    sortByScoreDesc_perm _
  have hsorted : List.Sorted scoreGe (sortByScoreDesc (entries ++ [e])) :=
    sortByScoreDesc_sorted _
  have hslen : (sortByScoreDesc (entries ++ [e])).length = 4 := by
    rw [hperm.length_eq, List.length_append, hlen]
    rfl
  have hdlen : ((sortByScoreDesc (entries ++ [e])).drop 3).length = 1 := by
    rw [List.length_drop, hslen]
  obtain ⟨x4, hx4⟩ := List.length_eq_one.mp hdlen
  have hsplit : (sortByScoreDesc (entries ++ [e])).take 3 ++
      (sortByScoreDesc (entries ++ [e])).drop 3 = sortByScoreDesc (entries ++ [e]) :=
    List.take_append_drop 3 _
  have hpw : ∀ a ∈ (sortByScoreDesc (entries ++ [e])).take 3,
      ∀ b ∈ (sortByScoreDesc (entries ++ [e])).drop 3, scoreGe a b := by
    have hs2 := hsorted
    rw [← hsplit] at hs2
    exact (List.pairwise_append.mp hs2).2.2
  have hx4e : x4 = e := by
    by_contra hne
    have hx4s : x4 ∈ sortByScoreDesc (entries ++ [e]) :=
      (List.drop_sublist 3 _).subset (hx4 ▸ List.mem_singleton_self x4)
    have hx4mem : x4 ∈ entries ++ [e] := hperm.subset hx4s
    rcases List.mem_append.mp hx4mem with hx4ent | hx4e
    · have hscore : e.score < x4.score := hgt x4 hx4ent
      have hes : e ∈ sortByScoreDesc (entries ++ [e]) :=
        hperm.mem_iff.mpr (List.mem_append_right _ (List.mem_singleton_self e))
      rw [← hsplit] at hes
      rcases List.mem_append.mp hes with het | hed
      · have := hpw e het x4 (hx4 ▸ List.mem_singleton_self x4)
        rw [scoreGe] at this
        omega
      · rw [hx4] at hed
        exact hne ((List.mem_singleton.mp hed).symm)
    · exact hne (List.mem_singleton.mp hx4e)
  have hdrop_e : (sortByScoreDesc (entries ++ [e])).drop 3 = [e] := by
    rw [hx4, hx4e]
  have hsplit2 : (sortByScoreDesc (entries ++ [e])).take 3 ++ [e] =
      sortByScoreDesc (entries ++ [e]) := by
    nth_rewrite 2 [← hdrop_e]
    exact hsplit
  have hperm3 : List.Perm ((sortByScoreDesc (entries ++ [e])).take 3) entries := by
    have hp2 : List.Perm ((sortByScoreDesc (entries ++ [e])).take 3 ++ [e])
        (entries ++ [e]) := by
      rw [hsplit2]
      exact hperm
    exact (List.perm_append_right_iff [e]).mp hp2
  have hidperm : List.Perm (top3Ids (entries ++ [e])) (entries.map ScoreEntry.id) :=
    hperm3.map ScoreEntry.id
  rw [trimTop3, List.filter_append]
  have hkeep : entries.filter
      (fun x => decide (x.id ∈ top3Ids (entries ++ [e]))) = entries := by
    rw [List.filter_eq_self]
    intro x hx
    simp only [decide_eq_true_eq]
    exact hidperm.mem_iff.mpr (List.mem_map_of_mem ScoreEntry.id hx)
  have hdrop : [e].filter
      (fun x => decide (x.id ∈ top3Ids (entries ++ [e]))) = [] := by
    have hpe : e.id ∉ top3Ids (entries ++ [e]) := by
      intro hmem
      obtain ⟨x, hx, hxid⟩ := List.mem_map.mp (hidperm.mem_iff.mp hmem)
      exact hid x hx hxid
    simp [hpe]
  rw [hkeep, hdrop, List.append_nil]
/-- C10: a register call can answer success while the registered username
never reaches the leaderboard: when the store holds 3 rows all scoring
strictly above the pending proof's score, the trim of the same transaction
deletes the row just inserted, yet the call answers `success` with the
registered score, leaves the leaderboard exactly as it was (the username
absent), and consumes the proof. -/
theorem registerTop3_success_without_entry
    (hash : String → String) (st : ServerState) (gid username token : String)
    (now : Int) (p : PendingToken)
    (h1 : ¬ (gid = "" ∨ username = "" ∨ token = ""))
    (h2 : ¬ ((trimString username).length < 1 ∨ username.length > 50))
    (hfind : st.pendingTokens.find? (matchesProof gid (hash token)) = some p)
    (hexp : ¬ p.expiresAt < now)
    (hlen : st.topScores.length = 3)
    (hgt : ∀ x ∈ st.topScores, p.score < x.score)
    (hidlt : ∀ x ∈ st.topScores, x.id < st.nextScoreId)
    (hname : ∀ x ∈ st.topScores, x.username ≠ trimString username) :
    (registerTop3 hash st ⟨some gid, some username, some token⟩ now
        noRegFailures).1 = .success p.score ∧
    (registerTop3 hash st ⟨some gid, some username, some token⟩ now
        noRegFailures).2.topScores = st.topScores ∧
    trimString username ∉
      ((registerTop3 hash st ⟨some gid, some username, some token⟩ now
        noRegFailures).2.topScores.map ScoreEntry.username) ∧
    (registerTop3 hash st ⟨some gid, some username, some token⟩ now
        noRegFailures).2.pendingTokens =
      deletePendingToken st.pendingTokens gid := by
  have h2n : ¬ ((trimString username).length = 0 ∨ 50 < username.length) := by
    omega
  have htrim : trimTop3 (st.topScores ++
      [(⟨st.nextScoreId, trimString username, p.score⟩ : ScoreEntry)]) =
      st.topScores :=
    trimTop3_append_smallest st.topScores _ hlen (fun x hx => hgt x hx)
      (fun x hx => Nat.ne_of_lt (hidlt x hx))
  have hres : registerTop3 hash st ⟨some gid, some username, some token⟩ now
      noRegFailures =
      (.success p.score,
        { st with
            nextScoreId := st.nextScoreId + 1
            pendingTokens := deletePendingToken st.pendingTokens gid }) := by
    simp [registerTop3, h1, h2n, hfind, hexp, updateTop3, noRegFailures, htrim]
  rw [hres]
  refine ⟨rfl, rfl, ?_, rfl⟩
  intro hmem
  obtain ⟨x, hx, hxu⟩ := List.mem_map.mp hmem
  exact hname x hx hxu

/-- Witness for C7 at the concrete store `wState`: correct token with wrong id
misses, and correct id with wrong token misses. -/
theorem registerTop3_compound_match_witness :
    registerTop3 wHash wState ⟨some "g2", some "Dan", some "tok"⟩ 500
        noRegFailures = (.proofNotFound, wState) ∧
    registerTop3 wHash wState ⟨some "g1", some "Dan", some "bad"⟩ 500
        noRegFailures = (.proofNotFound, wState) :=
  ⟨(registerTop3_compound_match wHash wState ⟨"g1", "tokH", 25, 50, 1000⟩ 500
      noRegFailures (by decide) rfl).1 "g2" "Dan" "tok" (by decide) (by decide)
      (by decide) (by decide) (by decide),
   (registerTop3_compound_match wHash wState ⟨"g1", "tokH", 25, 50, 1000⟩ 500
      noRegFailures (by decide) rfl).2 "Dan" "bad" (by decide) (by decide)
      (by decide) (by decide)⟩

/-- Witness for C8 at the concrete store `wState`, with the proof expired
(now = 2000 > 1000): first call `proofExpired`, second call `proofNotFound`
even with the correct token. -/
theorem registerTop3_expired_consumed_witness :
    registerTop3 wHash wState ⟨some "g1", some "Dan", some "tok"⟩ 2000
        noRegFailures =
      (.proofExpired,
        { wState with
            pendingTokens := deletePendingToken wState.pendingTokens "g1" }) ∧
    registerTop3 wHash
        { wState with
            pendingTokens := deletePendingToken wState.pendingTokens "g1" }
        ⟨some "g1", some "Eve", some "tok"⟩ 2100 noRegFailures =
      (.proofNotFound,
        { wState with
            pendingTokens := deletePendingToken wState.pendingTokens "g1" }) :=
  registerTop3_expired_consumed wHash wHash wState "g1" "Dan" "Eve" "tok" "tok"
    2000 2100 noRegFailures noRegFailures ⟨"g1", "tokH", 25, 50, 1000⟩
    (by decide) (by decide) (by decide) (by decide) rfl rfl rfl
    (by decide) (by decide)

/-- Witness for C9 at the concrete store `wState`: the transaction fails, the
state is unchanged, and the retry succeeds with the registered score. -/
theorem registerTop3_update_rollback_witness :
    registerTop3 wHash wState ⟨some "g1", some "Dan", some "tok"⟩ 500
        ⟨false, false, true, false⟩ = (.storageFailure, wState) ∧
    (registerTop3 wHash wState ⟨some "g1", some "Dan", some "tok"⟩ 600
        noRegFailures).1 = .success 25 :=
  registerTop3_update_rollback wHash wState "g1" "Dan" "tok" 500 600
    ⟨false, false, true, false⟩ ⟨"g1", "tokH", 25, 50, 1000⟩
    (by decide) (by decide) rfl rfl (by decide) (by decide) (by decide)

/-- A concrete store for the C10 witness: the pending proof's score 5 is
strictly below all three leaderboard scores. -/
def wStateLow : ServerState :=
  ⟨[], 4, [⟨1, "a", 10⟩, ⟨2, "b", 20⟩, ⟨3, "c", 30⟩], [⟨"g1", "tokH", 5, 50, 1000⟩]⟩

/-- Witness for C10 at the concrete store `wStateLow`: registration succeeds
with score 5, yet "Dan" never appears on the leaderboard and the proof is
consumed. -/
theorem registerTop3_success_without_entry_witness :
    (registerTop3 wHash wStateLow ⟨some "g1", some "Dan", some "tok"⟩ 500
        noRegFailures).1 = .success 5 ∧
    (registerTop3 wHash wStateLow ⟨some "g1", some "Dan", some "tok"⟩ 500
        noRegFailures).2.topScores = wStateLow.topScores ∧
    trimString "Dan" ∉
      ((registerTop3 wHash wStateLow ⟨some "g1", some "Dan", some "tok"⟩ 500
        noRegFailures).2.topScores.map ScoreEntry.username) ∧
    (registerTop3 wHash wStateLow ⟨some "g1", some "Dan", some "tok"⟩ 500
        noRegFailures).2.pendingTokens =
      deletePendingToken wStateLow.pendingTokens "g1" :=
  registerTop3_success_without_entry wHash wStateLow "g1" "Dan" "tok" 500
    ⟨"g1", "tokH", 5, 50, 1000⟩ (by decide) (by decide) (by decide) (by decide)
    (by decide) (by decide) (by decide) (by decide)

end DoveServer
